import Mathlib

/-!
Verification of the article lifecycle and history-aware selection pipeline of
the better-morning digest generator.

The definitions below are a shallow embedding of the Python sources:
  * `src/better_morning/rss_fetcher.py`   (Article, history files, time spans,
    age cutoff, fetch_articles),
  * `src/better_morning/llm_summarizer.py` (selection of articles for fetching,
    token-budget truncation),
  * `src/better_morning/content_extractor.py` (the per-article fallback chain),
  * `src/main.py`                          (the orchestrator's commit step).

Modelling conventions:
  * Python `datetime` values are modelled as a clock value in seconds together
    with a timezone-awareness flag.  Every aware datetime built by the program
    carries `timezone.utc`, and `replace(tzinfo=timezone.utc)` on a naive value
    keeps the clock value, so comparisons act on the seconds component.
  * External library calls (feedparser, requests, Playwright, trafilatura,
    BeautifulSoup, python-magic, litellm) are inputs of the embedded
    functions: their outcome for each call site is passed in explicitly.
  * Python list/str/int are `List`/`String`/`Int`; a fallible operation
    returns `Except String` whose `.error` case is a raised exception.
  * Python dicts keyed by strings are insertion-ordered association lists,
    with update-in-place on an existing key and append on a new key.
-/

namespace BetterMorning

/-- Python `datetime`: clock value in seconds plus tz-awareness flag.  All
aware datetimes in the program are UTC, so the clock value is comparable
directly; `replace(tzinfo=timezone.utc)` keeps `secs` and sets `aware`. -/
structure PyDateTime where
  secs : Int
  aware : Bool
deriving Repr, DecidableEq

/-- Bytes of a binary payload (`requests` response `.content`, PDF data). -/
abbrev Bytes := List Nat

/-- The `Article` pydantic model of `rss_fetcher.py`. -/
structure Article where
  id : String
  title : String
  link : String
  sourceUrl : Option String := none
  feedName : Option String := none
  publishedDate : PyDateTime
  summary : Option String := none
  content : Option String := none
  rawContent : Option Bytes := none
  contentType : Option String := none
  followArticleLinks : Option Bool := none
deriving Repr, DecidableEq

/-- Python's `a or b` on strings where `a` is optional: an empty or missing
first operand yields the second.  Used for `content_html or entry.get("summary")`
and `main_text_content or article.summary`. -/
def pyOrStr (a : Option String) (b : Option String) : Option String :=
  match a with
  | some s => if s = "" then b else some s
  | none => b

/-- Insertion-ordered dict insert (`d[k] = v`): update in place when the key
exists, append otherwise. -/
def pyDictInsert {α : Type} (d : List (String × α)) (k : String) (v : α) :
    List (String × α) :=
  if d.any (fun p => p.1 = k) then
    d.map (fun p => if p.1 = k then (k, v) else p)
  else d ++ [(k, v)]

/-- Dict lookup (`k in d`, `d[k]`). -/
def pyDictLookup {α : Type} (d : List (String × α)) (k : String) : Option α :=
  d.lookup k

/-- `{article.id: article for article in articles}`. -/
def articlesById (articles : List Article) : List (String × Article) :=
  articles.foldl (fun d a => pyDictInsert d a.id a) []

/-! ## rss_fetcher.py -/

/-- `RSSFetcher._parse_time_span`: parse `'1h'`, `'2d'`, `'30m'`
(regex `^(\d+)([hdm])$`) into a duration in seconds; anything else raises
`ValueError`.  `timedelta` is represented by its total seconds. -/
def parseTimeSpan (timeSpan : String) : Except String Int :=
  let cs := timeSpan.toList
  let digits := cs.dropLast
  let err : Except String Int :=
    Except.error ("Invalid time span format: " ++ timeSpan)
  match cs.getLast? with
  | none => err
  | some unit =>
    if digits = [] ∨ ¬ (digits.all Char.isDigit) then err
    else
      let value : Int :=
        digits.foldl (fun acc c => acc * 10 + (c.toNat - '0'.toNat)) 0
      if unit = 'h' then Except.ok (value * 3600)
      else if unit = 'd' then Except.ok (value * 86400)
      else if unit = 'm' then Except.ok (value * 60)
      else err

/-- The value of a decimal digit string, as `int()` computes it. -/
def digitsToInt (ds : List Char) : Int :=
  ds.foldl (fun acc c => acc * 10 + (c.toNat - '0'.toNat)) 0

/-- `RSSFetcher._calculate_cutoff_date`: `None`/empty `max_age` means no
cutoff; the `"last-digest"` sentinel resolves through the stored digest
timestamp; otherwise the span is parsed, and a `ValueError` from the parse is
caught, logged as a warning, and turned into no cutoff (no exception escapes).
`now` is `datetime.now(timezone.utc)`; `lastDigest` is the stored digest
timestamp when present. -/
def calculateCutoffDate (maxAge : Option String) (now : Int)
    (lastDigest : Option PyDateTime) : Option PyDateTime :=
  match maxAge with
  | none => none
  | some s =>
    if s = "" then none
    else if s = "last-digest" then lastDigest
    else
      match parseTimeSpan s with
      | Except.ok delta => some ⟨now - delta, true⟩
      | Except.error _ => none

/-- `RSSFetcher._is_article_too_old`: no cutoff means never too old; both
dates are normalized to be timezone-aware (naive values are reinterpreted as
UTC, keeping the clock value) and then compared strictly. -/
def isArticleTooOld (articleDate : PyDateTime) (cutoff : Option PyDateTime) :
    Bool :=
  match cutoff with
  | none => false
  | some c => articleDate.secs < c.secs

/-- Content of a persisted per-collection article history file, as seen by
`json.load`: either a well-formed article list or bytes that make the JSON
parse raise. -/
inductive HistoryFileContent where
  | good (articles : List Article)
  | corrupt
deriving Repr, DecidableEq

/-- The slice of the filesystem the pipeline persists state in.  The article
history of collection `c` lives at `history/{c}_articles.json` and its digest
timestamp at `history/{c}_digest_history.json`; both paths are injective in
`c` and the two families are disjoint (distinct suffixes), so each family is
keyed here directly by collection name.  An absent key is an absent file. -/
structure FS where
  articleFiles : List (String × HistoryFileContent)
  digestFiles : List (String × Int)
deriving Repr, DecidableEq

/-- `RSSFetcher._load_historical_articles`: a missing history file yields the
empty list; an existing file is parsed by `json.load`, whose failure on a
corrupt file is NOT caught and propagates as an exception. -/
def loadHistoricalArticles (fs : FS) (collection : String) :
    Except String (List Article) :=
  match fs.articleFiles.lookup collection with
  | none => Except.ok []
  | some (HistoryFileContent.good articles) => Except.ok articles
  | some HistoryFileContent.corrupt =>
    Except.error "json.decoder.JSONDecodeError"

/-- Write (create or replace) a collection's article history file. -/
def fsWriteArticles (fs : FS) (collection : String)
    (content : HistoryFileContent) : FS :=
  { fs with articleFiles := pyDictInsert fs.articleFiles collection content }

/-- `RSSFetcher._save_articles_to_history`: dedup by id through a dict, keep
the dict's values and write them out. -/
def saveArticlesToHistory (fs : FS) (collection : String)
    (articles : List Article) : FS :=
  fsWriteArticles fs collection
    (HistoryFileContent.good ((articlesById articles).map Prod.snd))

/-- The article list produced by merging the selected articles into an
existing history list: dict of the existing articles by id, then each selected
article inserted (overwriting on an equal id), then the dict's values. -/
def mergeSelectedIntoHistory (hist selected : List Article) : List Article :=
  (selected.foldl (fun d a => pyDictInsert d a.id a) (articlesById hist)).map
    Prod.snd

/-- `RSSFetcher.save_selected_articles_to_history`: load the existing history
(an exception from a corrupt file propagates), merge the selected articles in,
and write the result. -/
def saveSelectedArticlesToHistory (fs : FS) (collection : String)
    (selected : List Article) : Except String FS :=
  match loadHistoricalArticles fs collection with
  | Except.error e => Except.error e
  | Except.ok hist =>
    Except.ok
      (saveArticlesToHistory fs collection (mergeSelectedIntoHistory hist selected))

/-- `RSSFetcher.save_digest_time`: write the digest timestamp file. -/
def saveDigestTime (fs : FS) (collection : String) (digestTime : Int) : FS :=
  { fs with digestFiles := pyDictInsert fs.digestFiles collection digestTime }

/-- `article_id in historical_articles` where the dict is keyed by article id:
membership of an id in a history list. -/
def histHasId (hist : List Article) (id : String) : Bool :=
  hist.any (fun a => a.id = id)

/-- Outcome of resolving a feed entry's published date from the feedparser
entry (lines 351-387 of `rss_fetcher.py`): either `published_parsed` is
absent, or the tuple converts to a datetime, or the conversion raised
`ValueError` and the raw `published` string was handed to
`email.utils.parsedate_to_datetime` (whose result is carried when that parse
succeeded, `none` when the string is absent or unparseable). -/
inductive ParsedDateOutcome where
  | absent
  | ok (d : PyDateTime)
  | invalid (fromPublishedStr : Option PyDateTime)
deriving Repr, DecidableEq

/-- A feedparser entry, with the library-computed parts supplied as data. -/
structure FeedEntry where
  link : String
  title : String
  dateOutcome : ParsedDateOutcome
  contentValue : Option String := none
  summary : Option String := none
deriving Repr, DecidableEq

/-- An RSS feed configuration as consumed by `RSSFetcher.fetch_articles`,
together with the network outcome of fetching it (`_fetch_feed_with_retry`
returns the parsed feed, or `None` once all retries failed). -/
structure RSSFeedCfg where
  url : String
  name : Option String := none
  maxArticles : Option Int := none
  followArticleLinks : Option Bool := none
  fetchResult : Option (List FeedEntry) := none
deriving Repr, DecidableEq

/-- Resolve an entry's published date: a converted `published_parsed` tuple
wins; on a conversion error the parsed `published` string is used, normalized
to UTC when naive; everything else falls back to `now` (aware). -/
def resolvePublishedDate (e : FeedEntry) (now : Int) : PyDateTime :=
  match e.dateOutcome with
  | ParsedDateOutcome.absent => ⟨now, true⟩
  | ParsedDateOutcome.ok d => d
  | ParsedDateOutcome.invalid parsed =>
    match parsed with
    | some d => if d.aware then d else ⟨d.secs, true⟩
    | none => ⟨now, true⟩

/-- `summary_text = content_html or entry.get("summary")` where
`content_html` is `entry.content[0].value` when the entry has content and the
empty string otherwise. -/
def entrySummaryText (e : FeedEntry) : Option String :=
  pyOrStr e.contentValue e.summary

/-- Build the `Article` for a surviving entry (lines 402-411). -/
def entryToArticle (feed : RSSFeedCfg) (e : FeedEntry) (pd : PyDateTime) :
    Article :=
  { id := e.link
    title := e.title
    link := e.link
    sourceUrl := some feed.url
    feedName := feed.name
    publishedDate := pd
    summary := entrySummaryText e
    followArticleLinks := feed.followArticleLinks }

/-- The `max_articles` cap, applied after the known-id filter: only a
configured positive cap smaller than the candidate count truncates. -/
def applyMaxArticles (maxArticles : Option Int) (entries : List FeedEntry) :
    List FeedEntry :=
  match maxArticles with
  | none => entries
  | some m =>
    if 0 < m ∧ m < (entries.length : Int) then entries.take m.toNat
    else entries

/-- The per-feed body of `fetch_articles` once the feed is fetched: drop
entries whose id (link) is already in history, cap to `max_articles`, then
drop entries older than the cutoff and normalize the rest into Articles. -/
def processFeedEntries (hist : List Article) (cutoff : Option PyDateTime)
    (now : Int) (feed : RSSFeedCfg) (entries : List FeedEntry) :
    List Article :=
  let available := entries.filter (fun e => !histHasId hist e.link)
  let available := applyMaxArticles feed.maxArticles available
  available.filterMap (fun e =>
    if isArticleTooOld (resolvePublishedDate e now) cutoff then none
    else some (entryToArticle feed e (resolvePublishedDate e now)))

/-- Articles contributed by one feed: a feed whose fetch failed contributes
nothing (its failure is recorded and the loop continues). -/
def perFeedArticles (hist : List Article) (cutoff : Option PyDateTime)
    (now : Int) (feed : RSSFeedCfg) : List Article :=
  match feed.fetchResult with
  | none => []
  | some entries => processFeedEntries hist cutoff now feed entries

/-- `RSSFetcher.fetch_articles` on an already-loaded history list: compute the
cutoff, then accumulate each feed's new articles in feed order. -/
def fetchArticlesPure (feeds : List RSSFeedCfg) (hist : List Article)
    (maxAge : Option String) (now : Int) (lastDigest : Option PyDateTime) :
    List Article :=
  let cutoff := calculateCutoffDate maxAge now lastDigest
  feeds.foldl (fun acc feed => acc ++ perFeedArticles hist cutoff now feed) []

/-- `RSSFetcher.fetch_articles` with its file effects: it loads the collection
history (a corrupt file's exception propagates) and performs no writes; the
filesystem component of the result is the input filesystem. -/
def fetchArticlesFS (fs : FS) (feeds : List RSSFeedCfg) (collection : String)
    (maxAge : Option String) (now : Int) (lastDigest : Option PyDateTime) :
    Except String (List Article) × FS :=
  match loadHistoricalArticles fs collection with
  | Except.error e => (Except.error e, fs)
  | Except.ok hist =>
    (Except.ok (fetchArticlesPure feeds hist maxAge now lastDigest), fs)

/-! ## main.py — the orchestrator's commit step -/

instance {ε α : Type} [DecidableEq ε] [DecidableEq α] :
    DecidableEq (Except ε α) := fun x y =>
  match x, y with
  | Except.ok a, Except.ok b =>
    if h : a = b then Decidable.isTrue (by rw [h])
    else Decidable.isFalse (fun hc => h (by injection hc))
  | Except.error a, Except.error b =>
    if h : a = b then Decidable.isTrue (by rw [h])
    else Decidable.isFalse (fun hc => h (by injection hc))
  | Except.ok _, Except.error _ => Decidable.isFalse (fun hc => by injection hc)
  | Except.error _, Except.ok _ => Decidable.isFalse (fun hc => by injection hc)

/-- One collection run as `main` sees it: the TOML file's basename, the
resolved collection name, and the result of `process_collection` — the
summarized articles on success, or the raised exception's message when any
step of the pipeline failed (that exception is caught in `main`'s loop). -/
structure CollectionRunSpec where
  fileBase : String
  name : String
  outcome : Except String (List Article)
deriving Repr, DecidableEq

/-- The pairs that populate `articles_by_collection`: a successful collection
contributes its summarized articles under its resolved name; a failed one
contributes the empty list under the TOML basename (the placeholder result of
`main`'s `except` branch). -/
def collectionResultPairs (collections : List CollectionRunSpec) :
    List (String × List Article) :=
  collections.map (fun c =>
    match c.outcome with
    | Except.ok articles => (c.name, articles)
    | Except.error _ => (c.fileBase, ([] : List Article)))

/-- `articles_by_collection`: the dict comprehension over the results. -/
def articlesByCollection (collections : List CollectionRunSpec) :
    List (String × List Article) :=
  (collectionResultPairs collections).foldl (fun d p => pyDictInsert d p.1 p.2)
    []

/-- Step 7 of `main`: walk the collection files in order and, for each whose
resolved name is mapped to a nonempty article list, merge those articles into
its history and store the digest timestamp.  A save that raises (corrupt
history file) kills the process: the filesystem stays as persisted so far. -/
def commitHistories (today : Int) (abc : List (String × List Article)) :
    FS → List CollectionRunSpec → FS
  | fs, [] => fs
  | fs, c :: rest =>
    match pyDictLookup abc c.name with
    | none => commitHistories today abc fs rest
    | some articles =>
      if articles.isEmpty then commitHistories today abc fs rest
      else
        match saveSelectedArticlesToHistory fs c.name articles with
        | Except.error _ => fs
        | Except.ok fs2 =>
          commitHistories today abc (saveDigestTime fs2 c.name today) rest

/-- The article-history effect of one `main` run, given each collection's
pipeline outcome: build `articles_by_collection`, then commit.  (The digest
TEXT history written in step 6 lives in `history/digest_history.json`, a path
outside both families in `FS`, so it is not represented.) -/
def runMainCommit (fs : FS) (collections : List CollectionRunSpec)
    (today : Int) : FS :=
  commitHistories today (articlesByCollection collections) fs collections

/-! ## llm_summarizer.py -/

/-- The 4-characters-per-token approximation constant of
`llm_summarizer.py` (named TOKEN_TO_CHAR_RATIO there). -/
def TOKEN_TO_CHAR_FACTOR : Nat := 4

/-- `LLMSummarizer._truncate_text_to_token_limit`: texts longer than
`token_limit * TOKEN_TO_CHAR_FACTOR` characters are cut to that prefix with the
flag set; shorter texts pass through unchanged.  Text is its character list. -/
def truncateTextToTokenLimit (text : List Char) (tokenLimit : Nat) :
    List Char × Bool :=
  let charLimit := tokenLimit * TOKEN_TO_CHAR_FACTOR
  if text.length > charLimit then (text.take charLimit, true)
  else (text, false)

/-- Stable insertion of an article into a list sorted by descending published
date (articles with an equal or later date keep their place before `a`). -/
def insertByDateDesc (a : Article) : List Article → List Article
  | [] => [a]
  | b :: rest =>
    if a.publishedDate.secs ≤ b.publishedDate.secs then
      b :: insertByDateDesc a rest
    else a :: b :: rest

/-- `sorted(articles, key=lambda a: a.published_date, reverse=True)`: a stable
descending sort by published date. -/
def sortByDateDesc (articles : List Article) : List Article :=
  articles.foldr insertByDateDesc []

/-- The body of the comprehension
`[articles[i - 1] for i in selected_indices if 0 < i <= len(articles)]`: a
1-based index inside the valid range maps to the corresponding article, any
other index is discarded. -/
def indexToArticle (articles : List Article) (i : Int) : Option Article :=
  if h : 0 < i ∧ i ≤ (articles.length : Int) then
    some (articles.get ⟨(i - 1).toNat, by omega⟩)
  else none

/-- `LLMSummarizer.select_articles_for_fetching`.  `n` is the configured
`n_most_important_news`; `oracle` is the outcome of the LLM round-trip —
`ok idxs` when the call succeeded and the reply parsed into an int list under
`"selected_indices"`, `error` when anything in the `try` block raised (API
failure, non-JSON reply, wrong shape).  The Bool of the result records
whether the LLM call was made. -/
def selectArticlesForFetching (n : Int) (articles : List Article)
    (oracle : Except String (List Int)) : List Article × Bool :=
  if articles.isEmpty then ([], false)
  else if min (articles.length : Int) (3 * n) = 0 then ([], false)
  else if (articles.length : Int) ≤ min (articles.length : Int) (3 * n) then
    (articles, false)
  else
    match oracle with
    | Except.ok idxs => (idxs.filterMap (indexToArticle articles), true)
    | Except.error _ =>
      ((sortByDateDesc articles).take
        (min (articles.length : Int) (3 * n)).toNat, true)

/-! ## content_extractor.py -/

/-- A `requests` response as the extractor inspects it: the lowercased
`Content-Type` header, the body bytes (`response.content`) and text
(`response.text`), the final post-redirect URL, and the python-magic sniffing
result (`""` when the detection raised, as assigned by the `except` branch). -/
structure HttpResponse where
  contentTypeHeader : String
  bodyBytes : Bytes
  bodyText : String
  finalUrl : String
  magicMime : String
deriving Repr, DecidableEq

/-- The content-extraction settings as consumed by `ContentExtractor`. -/
structure ExtractionSettings where
  followArticleLinks : Bool
  linkFilterPattern : Option String := none
deriving Repr, DecidableEq

/-- Outcomes of the external calls `_get_content_impl` makes, supplied per
article: the direct `requests` fetch of the article link (`none` when it
raised `RequestException`), the Playwright page content (`none` on timeout or
navigation error), `trafilatura.extract` post-strip (`none` for no result),
the candidate absolute link targets scanned from a page (given the base URL
and the HTML; `urljoin` and the 25-tag scan are inside), the sub-link fetches,
the stripped `<title>` text of a linked page, and `re.search` of the
configured link filter pattern. -/
structure ExtractorEnv where
  direct : Option HttpResponse
  browserHtml : Option String
  extract : String → Option String
  pageLinks : String → String → List String
  subFetch : String → Option HttpResponse
  pageTitle : String → Option String
  regexMatches : String → String → Bool

/-- Substring test on character lists: the needle occurs as a contiguous run. -/
def charListContains (needle : List Char) : List Char → Bool
  | [] => needle.isEmpty
  | c :: rest => needle.isPrefixOf (c :: rest) || charListContains needle rest

/-- Substring test (Python `in` on strings). -/
def strContains (hay needle : String) : Bool :=
  charListContains needle.toList hay.toList

/-- The PDF check of `_get_content_impl`: magic detection, declared header, or
a `.pdf` final URL. -/
def isPdfResponse (r : HttpResponse) : Bool :=
  r.magicMime = "application/pdf"
    || strContains r.contentTypeHeader "application/pdf"
    || strContains r.contentTypeHeader "pdf"
    || (r.finalUrl.toLower.endsWith ".pdf")

/-- Count the maximal nonempty whitespace-free runs of a character list; the
flag records whether the previous character was inside a word. -/
def countWordsAux : List Char → Bool → Nat
  | [], _ => 0
  | c :: rest, inWord =>
    if c.isWhitespace then countWordsAux rest false
    else (if inWord then 0 else 1) + countWordsAux rest true

/-- `len(s.split())`: count of maximal nonempty whitespace-free runs. -/
def wordCount (s : String) : Nat :=
  countWordsAux s.toList false

/-- `article.summary and len(article.summary.split()) >= 400`: a present
summary of at least 400 words short-circuits fetching. -/
def summaryLongEnough (article : Article) : Bool :=
  match article.summary with
  | some s => 400 ≤ wordCount s
  | none => false

/-- `list(dict.fromkeys(l))`: dedup keeping the first occurrence. -/
def pyDedup (l : List String) : List String :=
  l.foldl (fun acc u => if u ∈ acc then acc else acc ++ [u]) []

/-- The per-sub-link body of the link-following loop: a failed sub-fetch is
skipped; a PDF sub-link becomes a raw-content article; an HTML sub-link is
text-extracted (yielding nothing skips it) with its title upgraded from the
page's `<title>` when that is nonempty.  `i` is the 0-based loop index. -/
def processSubLink (env : ExtractorEnv) (article : Article) (i : Nat)
    (url : String) : Option Article :=
  match env.subFetch url with
  | none => none
  | some r =>
    let linked : Article :=
      { id := article.id ++ "_link_" ++ toString (i + 1)
        title := article.title ++ " - Linked Content " ++ toString (i + 1)
        link := r.finalUrl
        sourceUrl := article.sourceUrl
        publishedDate := article.publishedDate
        followArticleLinks := some false }
    if isPdfResponse r then
      some { linked with
              rawContent := some r.bodyBytes
              contentType := some "application/pdf"
              title := article.title ++ " - Linked PDF " ++ toString (i + 1) }
    else
      match env.extract r.bodyText with
      | none => none
      | some t =>
        if t = "" then none
        else
          some { linked with
                  content := some t
                  contentType := some "text/plain"
                  title :=
                    match env.pageTitle r.bodyText with
                    | some tt => if tt = "" then linked.title else tt
                    | none => linked.title }

/-- The tail of `_get_content_impl` once HTML was obtained: extract the main
text (an empty extraction falls back to the summary), then, when
link-following applies (per-article override first, else the collection
setting), scan, filter, dedup and cap the outbound links and process each. -/
def extractAndFollow (settings : ExtractionSettings) (env : ExtractorEnv)
    (article : Article) (respOpt : Option HttpResponse) (html : String) :
    List Article :=
  let withContent :=
    { article with
        content := pyOrStr (env.extract html) article.summary
        contentType := some "text/plain" }
  let shouldFollow :=
    match article.followArticleLinks with
    | some b => b
    | none => settings.followArticleLinks
  if !shouldFollow then [withContent]
  else
    let baseUrl :=
      match respOpt with
      | some r => r.finalUrl
      | none => article.link
    let linksToFollow :=
      (env.pageLinks baseUrl html).filter (fun u =>
        (u.startsWith "http" && u ≠ baseUrl)
          && match settings.linkFilterPattern with
             | some pat => env.regexMatches pat u
             | none => true)
    let uniqueLinks := (pyDedup linksToFollow).take 30
    withContent ::
      uniqueLinks.enum.filterMap (fun p => processSubLink env withContent p.1 p.2)

/-- The HTML dispatch of `_get_content_impl`: no HTML at all, or empty HTML
(`if not html_content`), falls back to the RSS summary as content and returns
the single article; otherwise extraction (and possibly link-following) runs. -/
def continueWithHtml (settings : ExtractionSettings) (env : ExtractorEnv)
    (article : Article) (respOpt : Option HttpResponse)
    (htmlOpt : Option String) : List Article :=
  match htmlOpt with
  | none => [{ article with content := article.summary }]
  | some html =>
    if html = "" then [{ article with content := article.summary }]
    else extractAndFollow settings env article respOpt html

/-- `ContentExtractor._get_content_impl`: a ≥400-word RSS summary is used
verbatim; otherwise the direct fetch runs — a PDF body returns immediately
with raw content, an HTML body proceeds to extraction, and a failed direct
fetch falls back to the browser fetch, whose failure in turn falls back to
the RSS summary. -/
def getContentImpl (settings : ExtractionSettings) (env : ExtractorEnv)
    (article : Article) : List Article :=
  if summaryLongEnough article then
    [{ article with content := article.summary, contentType := some "text/plain" }]
  else
    match env.direct with
    | some resp =>
      if isPdfResponse resp then
        [{ article with
            rawContent := some resp.bodyBytes
            contentType := some "application/pdf" }]
      else continueWithHtml settings env article (some resp) (some resp.bodyText)
    | none => continueWithHtml settings env article none env.browserHtml

/-! ## Concrete instances used by counterexamples and witnesses -/

/-- A minimal article with the given id (also used as title and link) and
published clock value. -/
def mkDemoArticle (id : String) (secs : Int) : Article :=
  { id := id, title := id, link := id, publishedDate := ⟨secs, true⟩ }

/-- Four candidate articles. -/
def demoArticles4 : List Article :=
  [mkDemoArticle "a1" 1, mkDemoArticle "a2" 2, mkDemoArticle "a3" 3,
    mkDemoArticle "a4" 4]

/-- Three candidate articles. -/
def demoArticles3 : List Article :=
  [mkDemoArticle "b1" 1, mkDemoArticle "b2" 2, mkDemoArticle "b3" 3]

/-- A reference instant for the age-cutoff scenarios. -/
def demoNow : Int := 1000000000

/-- A feed entry published one day before `demoNow`. -/
def entryOneDay : FeedEntry :=
  { link := "http://n.ws/a", title := "one day old"
    dateOutcome := ParsedDateOutcome.ok ⟨demoNow - 86400, true⟩ }

/-- A feed entry published five days before `demoNow`. -/
def entryFiveDay : FeedEntry :=
  { link := "http://n.ws/b", title := "five days old"
    dateOutcome := ParsedDateOutcome.ok ⟨demoNow - 432000, true⟩ }

/-- A feed whose fetch yielded the one-day and the five-day entry. -/
def feedTwoEntries : RSSFeedCfg :=
  { url := "http://n.ws/rss", name := some "NWS"
    fetchResult := some [entryOneDay, entryFiveDay] }

/-- An article with a short RSS summary, for the extraction fallback chain. -/
def demoShortArticle : Article :=
  { id := "http://x/y", title := "t", link := "http://x/y"
    publishedDate := ⟨0, true⟩, summary := some "short rss summary" }

/-- An extractor environment in which the direct fetch and the browser fetch
both failed and every external helper yields nothing. -/
def demoEnvFail : ExtractorEnv :=
  { direct := none, browserHtml := none, extract := fun _ => none
    pageLinks := fun _ _ => [], subFetch := fun _ => none
    pageTitle := fun _ => none, regexMatches := fun _ _ => false }

/-- A selected article whose id matches `entryOneDay`'s link. -/
def demoSelectedArticle : Article := mkDemoArticle "http://n.ws/a" 5

/-- The filesystem after committing `demoSelectedArticle` for collection
`"news"` starting from an empty filesystem. -/
def demoFS1 : FS :=
  ⟨[("news", HistoryFileContent.good [demoSelectedArticle])], []⟩

/-- A collection run that succeeded with one summarized article. -/
def demoColOk : CollectionRunSpec :=
  { fileBase := "alpha", name := "alpha"
    outcome := Except.ok [mkDemoArticle "x" 1] }

/-- A collection run whose pipeline raised. -/
def demoColErr : CollectionRunSpec :=
  { fileBase := "beta", name := "beta", outcome := Except.error "boom" }

/-- A pre-run filesystem holding prior history for the failing collection. -/
def demoFSPre : FS :=
  ⟨[("beta", HistoryFileContent.good [mkDemoArticle "old" 0])], []⟩

end BetterMorning

namespace BetterMorning

/-! ## Helper lemmas -/

lemma mem_foldl_append {α β : Type} (g : β → List α) (l : List β)
    (init : List α) (a : α) :
    a ∈ l.foldl (fun acc x => acc ++ g x) init ↔
      a ∈ init ∨ ∃ x ∈ l, a ∈ g x := by
  induction l generalizing init with
  | nil => simp
  | cons x t ih =>
    simp only [List.foldl_cons, ih, List.mem_append, List.mem_cons]
    constructor
    · rintro (⟨h | h⟩ | ⟨y, hy, hya⟩)
      · exact Or.inl h
      · exact Or.inr ⟨x, Or.inl rfl, h⟩
      · exact Or.inr ⟨y, Or.inr hy, hya⟩
    · rintro (h | ⟨y, (rfl | hy), hya⟩)
      · exact Or.inl (Or.inl h)
      · exact Or.inl (Or.inr hya)
      · exact Or.inr ⟨y, hy, hya⟩

/-! ## C9 — token-budget truncation -/

/-- C9: truncating to a token limit `T` is a prefix operation: a text longer
than `TOKEN_TO_CHAR_FACTOR * T` characters is cut to exactly that many leading
characters with the truncation flag set, and any other text passes through
unchanged with the flag clear. -/
theorem token_truncation_prefix_operation (text : List Char) (T : Nat) :
    (TOKEN_TO_CHAR_FACTOR * T < text.length →
      truncateTextToTokenLimit text T
          = (text.take (TOKEN_TO_CHAR_FACTOR * T), true)
        ∧ (truncateTextToTokenLimit text T).1.length = TOKEN_TO_CHAR_FACTOR * T)
    ∧ (text.length ≤ TOKEN_TO_CHAR_FACTOR * T →
      truncateTextToTokenLimit text T = (text, false)) := by
  unfold truncateTextToTokenLimit TOKEN_TO_CHAR_FACTOR
  constructor
  · intro h
    rw [if_pos (by omega)]
    refine ⟨by rw [Nat.mul_comm], ?_⟩
    simp only [List.length_take]
    omega
  · intro h
    rw [if_neg (by omega)]

/-- Witness for C9 at a concrete five-character text and a one-token limit. -/
theorem token_truncation_prefix_operation_witness :
    truncateTextToTokenLimit "12345".toList 1 = ("1234".toList, true)
      ∧ truncateTextToTokenLimit "123".toList 1 = ("123".toList, false) := by
  constructor
  · have h := (token_truncation_prefix_operation "12345".toList 1).1 (by decide)
    rw [h.1]
    decide
  · exact (token_truncation_prefix_operation "123".toList 1).2 (by decide)

/-! ## C4 — history load on missing and corrupt files -/

/-- C4 counterexample: on a corrupt history file the load raises the JSON
decode error instead of reporting it and returning the empty history. -/
theorem corrupt_history_load_raises :
    loadHistoricalArticles ⟨[("news", HistoryFileContent.corrupt)], []⟩ "news"
      = Except.error "json.decoder.JSONDecodeError" := by decide

/-- C4 amended: loading a collection's history returns the empty list when no
history file exists (never raises for not-found), but a corrupt history file
raises a JSON decode error that propagates to the caller — the load is not
fail-open on corruption. -/
theorem history_load_missing_vs_corrupt :
    (∀ (fs : FS) (c : String), fs.articleFiles.lookup c = none →
      loadHistoricalArticles fs c = Except.ok [])
    ∧ (∀ (fs : FS) (c : String),
        fs.articleFiles.lookup c = some HistoryFileContent.corrupt →
        loadHistoricalArticles fs c
          = Except.error "json.decoder.JSONDecodeError") := by
  constructor <;> · intro fs c h; simp [loadHistoricalArticles, h]

/-- Witness for C4's amended statement on an empty filesystem and on a
filesystem with one corrupt history file. -/
theorem history_load_missing_vs_corrupt_witness :
    loadHistoricalArticles ⟨[], []⟩ "news" = Except.ok []
    ∧ loadHistoricalArticles ⟨[("a", HistoryFileContent.corrupt)], []⟩ "a"
        = Except.error "json.decoder.JSONDecodeError" :=
  ⟨(history_load_missing_vs_corrupt).1 ⟨[], []⟩ "news" rfl,
    (history_load_missing_vs_corrupt).2 ⟨[("a", HistoryFileContent.corrupt)], []⟩
      "a" (by decide)⟩

/-! ## C3 — unparseable max_age -/

/-- C3 counterexample: with `max_age = "2weeks"` no error is raised at
configuration load or anywhere else — `_parse_time_span` raises, but
`_calculate_cutoff_date` catches the error and yields no cutoff, and fetching
proceeds and returns both entries (even the five-day-old one). -/
theorem invalid_max_age_raises_nowhere :
    calculateCutoffDate (some "2weeks") demoNow none = none
    ∧ (fetchArticlesFS ⟨[], []⟩ [feedTwoEntries] "news" (some "2weeks") demoNow
        none).1
      = Except.ok
          [entryToArticle feedTwoEntries entryOneDay ⟨demoNow - 86400, true⟩,
            entryToArticle feedTwoEntries entryFiveDay
              ⟨demoNow - 432000, true⟩] := by
  constructor
  · decide
  · decide

/-- C3 amended: an unparseable `max_age` such as `"2weeks"` makes
`_parse_time_span` raise a `ValueError`, but `_calculate_cutoff_date` catches
it, logs a warning, and returns no cutoff, so configuration load succeeds and
fetching runs exactly as if no `max_age` had been configured. -/
theorem invalid_max_age_warns_and_disables_filter :
    parseTimeSpan "2weeks" = Except.error "Invalid time span format: 2weeks"
    ∧ (∀ (now : Int) (ld : Option PyDateTime),
        calculateCutoffDate (some "2weeks") now ld = none)
    ∧ (∀ (fs : FS) (feeds : List RSSFeedCfg) (c : String) (now : Int)
        (ld : Option PyDateTime),
        fetchArticlesFS fs feeds c (some "2weeks") now ld
          = fetchArticlesFS fs feeds c none now ld) := by
  refine ⟨by decide, fun now ld => rfl, fun fs feeds c now ld => rfl⟩

/-! ## C8 — fetch_articles is read-only on history -/

/-- C8: `fetch_articles` returns its articles without any history write: the
filesystem component of its outcome is the input filesystem, whatever the
feeds, collection, age policy and history contents are. -/
theorem fetch_articles_readonly (fs : FS) (feeds : List RSSFeedCfg)
    (c : String) (maxAge : Option String) (now : Int)
    (ld : Option PyDateTime) :
    (fetchArticlesFS fs feeds c maxAge now ld).2 = fs := by
  unfold fetchArticlesFS
  cases loadHistoricalArticles fs c <;> rfl

/-! ## C7 — fallback chain determinism -/

/-- C7: when the RSS summary is too short to short-circuit fetching, the
direct fetch raised, and the browser fetch also failed, `_get_content_impl`
returns the single input article with its `content` set to the original RSS
summary. -/
theorem fallback_chain_returns_summary (settings : ExtractionSettings)
    (env : ExtractorEnv) (article : Article)
    (hs : summaryLongEnough article = false) (hd : env.direct = none)
    (hb : env.browserHtml = none) :
    getContentImpl settings env article
        = [{ article with content := article.summary }]
    ∧ (getContentImpl settings env article).map (fun a => a.content)
        = [article.summary] := by
  have h1 : getContentImpl settings env article
      = [{ article with content := article.summary }] := by
    unfold getContentImpl
    rw [hs, hd]
    simp [continueWithHtml, hb]
  exact ⟨h1, by rw [h1]; rfl⟩

/-- Witness for C7: a concrete short-summary article whose direct and browser
fetches both failed comes back with the RSS summary as content. -/
theorem fallback_chain_returns_summary_witness :
    getContentImpl ⟨false, none⟩ demoEnvFail demoShortArticle
      = [{ demoShortArticle with content := demoShortArticle.summary }] :=
  (fallback_chain_returns_summary ⟨false, none⟩ demoEnvFail demoShortArticle
    (by decide) rfl rfl).1

/-! ## Lemmas about the oracle-index mapping -/

lemma indexToArticle_mem (articles : List Article) (i : Int) (a : Article)
    (h : indexToArticle articles i = some a) : a ∈ articles := by
  unfold indexToArticle at h
  split at h
  · cases h
    exact List.get_mem _ _ _
  · cases h

lemma filterMap_indexToArticle_filter (articles : List Article)
    (idxs : List Int) :
    idxs.filterMap (indexToArticle articles)
      = (idxs.filter
          (fun i => decide (0 < i ∧ i ≤ (articles.length : Int)))).filterMap
          (indexToArticle articles) := by
  induction idxs with
  | nil => rfl
  | cons i t ih =>
    by_cases h : 0 < i ∧ i ≤ (articles.length : Int)
    · obtain ⟨a, ha⟩ : ∃ a, indexToArticle articles i = some a := by
        unfold indexToArticle
        exact ⟨_, dif_pos h⟩
      simp [List.filterMap_cons, List.filter_cons, h, ha, ih]
    · have hnone : indexToArticle articles i = none := by
        unfold indexToArticle
        exact dif_neg h
      simp [List.filterMap_cons, List.filter_cons, h, hnone, ih]

lemma length_filterMap_indexToArticle (articles : List Article)
    (idxs : List Int) :
    (idxs.filterMap (indexToArticle articles)).length
      = (idxs.filter
          (fun i => decide (0 < i ∧ i ≤ (articles.length : Int)))).length := by
  induction idxs with
  | nil => rfl
  | cons i t ih =>
    by_cases h : 0 < i ∧ i ≤ (articles.length : Int)
    · have hsome : ∃ a, indexToArticle articles i = some a := by
        unfold indexToArticle
        exact ⟨_, dif_pos h⟩
      obtain ⟨a, ha⟩ := hsome
      simp [List.filterMap_cons, List.filter_cons, h, ha, ih]
    · have hnone : indexToArticle articles i = none := by
        unfold indexToArticle
        exact dif_neg h
      simp [List.filterMap_cons, List.filter_cons, h, hnone, ih]

/-! ## C10 — out-of-range oracle indices are discarded safely -/

/-- C10: on a successful oracle reply the selection returns only elements of
its input list, and replacing the reply by its in-range sub-list changes
nothing — out-of-range indices are discarded without an exception and without
switching to the most-recent fallback. -/
theorem oracle_reply_indices_safe (n : Int) (articles : List Article)
    (idxs : List Int) :
    (∀ a ∈ (selectArticlesForFetching n articles (Except.ok idxs)).1,
        a ∈ articles)
    ∧ selectArticlesForFetching n articles (Except.ok idxs)
        = selectArticlesForFetching n articles
            (Except.ok (idxs.filter
              (fun i => decide (0 < i ∧ i ≤ (articles.length : Int))))) := by
  constructor
  · intro a ha
    unfold selectArticlesForFetching at ha
    by_cases h0 : articles.isEmpty
    · rw [if_pos h0] at ha
      simp at ha
    · rw [if_neg h0] at ha
      by_cases h1 : min ((articles.length : Int)) (3 * n) = 0
      · rw [if_pos h1] at ha
        simp at ha
      · rw [if_neg h1] at ha
        by_cases h2 : (articles.length : Int)
            ≤ min ((articles.length : Int)) (3 * n)
        · rw [if_pos h2] at ha
          simpa using ha
        · rw [if_neg h2] at ha
          simp only [List.mem_filterMap] at ha
          obtain ⟨i, _, hsome⟩ := ha
          exact indexToArticle_mem articles i a hsome
  · unfold selectArticlesForFetching
    by_cases h0 : articles.isEmpty
    · rw [if_pos h0, if_pos h0]
    · rw [if_neg h0, if_neg h0]
      by_cases h1 : min ((articles.length : Int)) (3 * n) = 0
      · rw [if_pos h1, if_pos h1]
      · rw [if_neg h1, if_neg h1]
        by_cases h2 : (articles.length : Int)
            ≤ min ((articles.length : Int)) (3 * n)
        · rw [if_pos h2, if_pos h2]
        · rw [if_neg h2, if_neg h2]
          exact congrArg (fun l => (l, true))
            (filterMap_indexToArticle_filter articles idxs)

/-- Witness for C10: four candidates, a reply containing the in-range index 2
and the out-of-range index 99. -/
theorem oracle_reply_indices_safe_witness :
    mkDemoArticle "a2" 2 ∈ demoArticles4
    ∧ selectArticlesForFetching 1 demoArticles4 (Except.ok [2, 99])
        = selectArticlesForFetching 1 demoArticles4
            (Except.ok ([2, 99].filter
              (fun i => decide (0 < i ∧ i ≤ (demoArticles4.length : Int))))) := by
  have h := oracle_reply_indices_safe 1 demoArticles4 [2, 99]
  exact ⟨h.1 (mkDemoArticle "a2" 2) (by decide), h.2⟩

/-! ## C5 — selection subset bound -/

/-- C5 counterexample: with four candidates and a target of one final story
(bound `min 4 3 = 3`), an oracle reply listing all four in-range indices makes
the selection return four articles, more than the claimed bound. -/
theorem selection_bound_violated :
    ¬ (((selectArticlesForFetching 1 demoArticles4
          (Except.ok [1, 2, 3, 4])).1.length : Int)
        ≤ min ((demoArticles4.length : Int)) (3 * 1)) := by decide

/-- C5 amended: provided the configured story count is nonnegative and a
successful oracle reply contains at most `min(len, 3 n)` in-range indices,
the selection returns at most `min(len, 3 n)` articles; and whenever that
bound is at least the number of candidates, no oracle call is made and every
candidate is returned. -/
theorem selection_subset_bound (n : Int) (articles : List Article)
    (oracle : Except String (List Int)) (hn : 0 ≤ n)
    (hor : ∀ idxs, oracle = Except.ok idxs →
      ((idxs.filter
          (fun i => decide (0 < i ∧ i ≤ (articles.length : Int)))).length : Int)
        ≤ min ((articles.length : Int)) (3 * n)) :
    (((selectArticlesForFetching n articles oracle).1.length : Int)
        ≤ min ((articles.length : Int)) (3 * n))
    ∧ ((articles.length : Int) ≤ min ((articles.length : Int)) (3 * n) →
        selectArticlesForFetching n articles oracle = (articles, false)) := by
  constructor
  · unfold selectArticlesForFetching
    by_cases h0 : articles.isEmpty
    · rw [if_pos h0]
      simp only [List.length_nil]
      omega
    · rw [if_neg h0]
      by_cases h1 : min ((articles.length : Int)) (3 * n) = 0
      · rw [if_pos h1]
        simp only [List.length_nil]
        omega
      · rw [if_neg h1]
        by_cases h2 : (articles.length : Int)
            ≤ min ((articles.length : Int)) (3 * n)
        · rw [if_pos h2]
          simpa using h2
        · rw [if_neg h2]
          cases oracle with
          | ok idxs =>
            show ((idxs.filterMap (indexToArticle articles)).length : Int) ≤ _
            rw [length_filterMap_indexToArticle articles idxs]
            exact hor idxs rfl
          | error e =>
            show (((sortByDateDesc articles).take
                (min ((articles.length : Int)) (3 * n)).toNat).length : Int) ≤ _
            have hlen := List.length_take_le
              ((min ((articles.length : Int)) (3 * n)).toNat)
              (sortByDateDesc articles)
            omega
  · intro hbound
    unfold selectArticlesForFetching
    by_cases h0 : articles.isEmpty
    · rw [if_pos h0]
      have hnil : articles = [] := by
        cases articles
        · rfl
        · simp at h0
      rw [hnil]
    · rw [if_neg h0]
      have hpos : articles.length ≠ 0 := by
        cases articles
        · simp at h0
        · simp
      by_cases h1 : min ((articles.length : Int)) (3 * n) = 0
      · exfalso
        omega
      · rw [if_neg h1]
        by_cases h2 : (articles.length : Int)
            ≤ min ((articles.length : Int)) (3 * n)
        · rw [if_pos h2]
        · exact absurd hbound h2

/-- Witness for C5's amended statement: three candidates and a target of two
stories (bound `min 3 6 = 3 ≥ 3`): everything is returned without a call. -/
theorem selection_subset_bound_witness :
    (((selectArticlesForFetching 2 demoArticles3 (Except.ok [1])).1.length : Int)
        ≤ min ((demoArticles3.length : Int)) (3 * 2))
    ∧ selectArticlesForFetching 2 demoArticles3 (Except.ok [1])
        = (demoArticles3, false) := by
  have h := selection_subset_bound 2 demoArticles3 (Except.ok [1]) (by decide)
    (by intro idxs hidxs; cases hidxs; decide)
  exact ⟨h.1, h.2 (by decide)⟩

/-! ## C6 — age cutoff correctness -/

lemma filterMap_ite_none {α β : Type} (p : α → Bool) (g : α → β)
    (l : List α) :
    l.filterMap (fun a => if p a then none else some (g a))
      = (l.filter (fun a => !p a)).map g := by
  induction l with
  | nil => rfl
  | cons a t ih =>
    by_cases h : p a <;> simp [List.filterMap_cons, List.filter_cons, h, ih]

/-- C6: a `max_age` of the form digits-plus-unit parses to that many
hours/days/minutes of seconds; a parsed span makes the cutoff `now` minus the
span; the per-feed pipeline keeps, among the candidate entries, exactly those
not strictly older than the cutoff; and in the concrete `"2d"` scenario with
a one-day-old and a five-day-old article, exactly the one-day article is
returned. -/
theorem age_cutoff_correctness :
    (∀ ds : List Char, ds ≠ [] → ds.all Char.isDigit = true →
      parseTimeSpan (String.mk (ds ++ ['h']))
          = Except.ok (digitsToInt ds * 3600)
        ∧ parseTimeSpan (String.mk (ds ++ ['d']))
          = Except.ok (digitsToInt ds * 86400)
        ∧ parseTimeSpan (String.mk (ds ++ ['m']))
          = Except.ok (digitsToInt ds * 60))
    ∧ (∀ (s : String) (v now : Int) (ld : Option PyDateTime),
        parseTimeSpan s = Except.ok v →
        calculateCutoffDate (some s) now ld = some ⟨now - v, true⟩)
    ∧ (∀ (hist : List Article) (cutoff : Option PyDateTime) (now : Int)
        (feed : RSSFeedCfg) (entries : List FeedEntry),
        processFeedEntries hist cutoff now feed entries
          = ((applyMaxArticles feed.maxArticles
                (entries.filter (fun e => !histHasId hist e.link))).filter
              (fun e =>
                !isArticleTooOld (resolvePublishedDate e now) cutoff)).map
              (fun e => entryToArticle feed e (resolvePublishedDate e now)))
    ∧ fetchArticlesPure [feedTwoEntries] [] (some "2d") demoNow none
        = [entryToArticle feedTwoEntries entryOneDay ⟨demoNow - 86400, true⟩] := by
  refine ⟨?_, ?_, ?_, by decide⟩
  · intro ds hne hdig
    have hcond : ¬ (ds = [] ∨ ¬ (ds.all Char.isDigit = true)) := by
      simp [hne, hdig]
    refine ⟨?_, ?_, ?_⟩ <;>
      simp only [parseTimeSpan,
        show ∀ u : Char, (String.mk (ds ++ [u])).toList = ds ++ [u] from
          fun _ => rfl,
        List.getLast?_concat, List.dropLast_concat]
    · simp [digitsToInt]
      exact ⟨hne, by simpa using hdig⟩
    · simp [digitsToInt]
      exact ⟨hne, by simpa using hdig⟩
    · simp [digitsToInt]
      exact ⟨hne, by simpa using hdig⟩
  · intro s v now ld h
    have hne : s ≠ "" := by
      intro he
      subst he
      exact Except.noConfusion
        ((by decide :
          parseTimeSpan "" = Except.error "Invalid time span format: ").symm.trans
          h)
    have hld : s ≠ "last-digest" := by
      intro he
      subst he
      exact Except.noConfusion
        ((by decide : parseTimeSpan "last-digest"
            = Except.error "Invalid time span format: last-digest").symm.trans h)
    simp only [calculateCutoffDate]
    rw [if_neg hne, if_neg hld, h]
  · intro hist cutoff now feed entries
    simp only [processFeedEntries]
    exact filterMap_ite_none _ _ _

/-- Witness for C6 at the digits `['2']`, the span `"2d"` and the concrete
two-article scenario. -/
theorem age_cutoff_correctness_witness :
    parseTimeSpan (String.mk (['2'] ++ ['d']))
        = Except.ok (digitsToInt ['2'] * 86400)
    ∧ calculateCutoffDate (some "2d") demoNow none
        = some ⟨demoNow - 172800, true⟩ := by
  have h := age_cutoff_correctness
  exact ⟨(h.1 ['2'] (by decide) (by decide)).2.1,
    h.2.1 "2d" 172800 demoNow none (by decide)⟩

/-! ## Dict lemmas for the history merge -/

lemma lookup_cons_self {α : Type} (k pk : String) (pv : α)
    (t : List (String × α)) (h : k = pk) :
    List.lookup k ((pk, pv) :: t) = some pv := by
  rw [List.lookup_cons, show (k == pk) = true from by simpa using h]

lemma lookup_cons_ne {α : Type} (k pk : String) (pv : α)
    (t : List (String × α)) (h : k ≠ pk) :
    List.lookup k ((pk, pv) :: t) = List.lookup k t := by
  rw [List.lookup_cons, show (k == pk) = false from by simpa using h]

lemma lookup_update_self {α : Type} (d : List (String × α)) (k : String)
    (v : α) (h : d.any (fun p => p.1 = k) = true) :
    (d.map (fun p => if p.1 = k then (k, v) else p)).lookup k = some v := by
  induction d with
  | nil => simp at h
  | cons p t ih =>
    obtain ⟨pk, pv⟩ := p
    by_cases hpk : pk = k
    · rw [List.map_cons, if_pos hpk]
      exact lookup_cons_self k k v _ rfl
    · have h' : t.any (fun p => p.1 = k) = true := by
        simp only [List.any_cons, Bool.or_eq_true] at h
        rcases h with h | h
        · exact absurd (of_decide_eq_true h) hpk
        · exact h
      rw [List.map_cons, if_neg hpk]
      rw [lookup_cons_ne k pk pv _ (Ne.symm hpk)]
      exact ih h'

lemma lookup_append_new {α : Type} (d : List (String × α)) (k : String)
    (v : α) (h : d.any (fun p => p.1 = k) = false) :
    (d ++ [(k, v)]).lookup k = some v := by
  induction d with
  | nil => exact lookup_cons_self k k v _ rfl
  | cons p t ih =>
    obtain ⟨pk, pv⟩ := p
    simp only [List.any_cons, Bool.or_eq_false_iff] at h
    have hpk : pk ≠ k := by simpa using h.1
    rw [List.cons_append, lookup_cons_ne k pk pv _ (Ne.symm hpk)]
    exact ih h.2

lemma lookup_pyDictInsert_self {α : Type} (d : List (String × α)) (k : String)
    (v : α) : (pyDictInsert d k v).lookup k = some v := by
  unfold pyDictInsert
  split
  · rename_i h
    exact lookup_update_self d k v h
  · rename_i h
    exact lookup_append_new d k v (eq_false_of_ne_true h)

lemma lookup_map_update_ne {α : Type} (d : List (String × α)) (k' k : String)
    (v : α) (hne : k ≠ k') :
    (d.map (fun p => if p.1 = k' then (k', v) else p)).lookup k
      = d.lookup k := by
  induction d with
  | nil => rfl
  | cons p t ih =>
    obtain ⟨pk, pv⟩ := p
    by_cases hpk : pk = k'
    · rw [List.map_cons, if_pos hpk]
      rw [lookup_cons_ne k k' v _ hne,
        lookup_cons_ne k pk pv _ (fun he => hne (he.trans hpk))]
      exact ih
    · rw [List.map_cons, if_neg hpk]
      by_cases hk : k = pk
      · rw [lookup_cons_self k pk pv _ hk, lookup_cons_self k pk pv _ hk]
      · rw [lookup_cons_ne k pk pv _ hk, lookup_cons_ne k pk pv _ hk]
        exact ih

lemma lookup_append_ne {α : Type} (d : List (String × α)) (k' k : String)
    (v : α) (hne : k ≠ k') :
    (d ++ [(k', v)]).lookup k = d.lookup k := by
  induction d with
  | nil =>
    rw [List.nil_append, lookup_cons_ne k k' v _ hne]
  | cons p t ih =>
    obtain ⟨pk, pv⟩ := p
    rw [List.cons_append]
    by_cases hk : k = pk
    · rw [lookup_cons_self k pk pv _ hk, lookup_cons_self k pk pv _ hk]
    · rw [lookup_cons_ne k pk pv _ hk, lookup_cons_ne k pk pv _ hk]
      exact ih

lemma lookup_pyDictInsert_ne {α : Type} (d : List (String × α)) (k' k : String)
    (v : α) (hne : k ≠ k') :
    (pyDictInsert d k' v).lookup k = d.lookup k := by
  unfold pyDictInsert
  split
  · exact lookup_map_update_ne d k' k v hne
  · exact lookup_append_ne d k' k v hne

lemma pair_mem_pyDictInsert_self {α : Type} (d : List (String × α))
    (k : String) (v : α) : (k, v) ∈ pyDictInsert d k v := by
  unfold pyDictInsert
  split
  · rename_i h
    rw [List.any_eq_true] at h
    obtain ⟨p, hp, he⟩ := h
    exact List.mem_map.mpr ⟨p, hp, by rw [if_pos (of_decide_eq_true he)]⟩
  · exact List.mem_append_right _ (List.mem_singleton.mpr rfl)

lemma pair_mem_pyDictInsert_of_mem {α : Type} {d : List (String × α)}
    {q : String × α} {k : String} {v : α} (hq : q ∈ d) (hne : q.1 ≠ k) :
    q ∈ pyDictInsert d k v := by
  unfold pyDictInsert
  split
  · exact List.mem_map.mpr ⟨q, hq, by rw [if_neg hne]⟩
  · exact List.mem_append_left _ hq

lemma idKey_preserved_foldl (l : List Article)
    (d : List (String × Article)) (k : String)
    (h : ∃ w, (k, w) ∈ d ∧ w.id = k) :
    ∃ w, (k, w) ∈ l.foldl (fun d a => pyDictInsert d a.id a) d ∧ w.id = k := by
  induction l generalizing d with
  | nil => exact h
  | cons a t ih =>
    rw [List.foldl_cons]
    apply ih
    by_cases hk : a.id = k
    · refine ⟨a, ?_, hk⟩
      rw [← hk]
      exact pair_mem_pyDictInsert_self d a.id a
    · obtain ⟨w, hw, hid⟩ := h
      exact ⟨w, pair_mem_pyDictInsert_of_mem hw (fun he => hk he.symm), hid⟩

lemma idKey_mem_foldl_insert (l : List Article) (d : List (String × Article))
    (s : Article) (hs : s ∈ l) :
    ∃ w, (s.id, w) ∈ l.foldl (fun d a => pyDictInsert d a.id a) d
      ∧ w.id = s.id := by
  induction l generalizing d with
  | nil => cases hs
  | cons a t ih =>
    rw [List.foldl_cons]
    rcases List.mem_cons.mp hs with rfl | hs'
    · exact idKey_preserved_foldl t _ s.id
        ⟨s, pair_mem_pyDictInsert_self d s.id s, rfl⟩
    · exact ih _ hs'

lemma histHasId_articlesById (l : List Article) (k : String)
    (h : histHasId l k = true) :
    histHasId ((articlesById l).map Prod.snd) k = true := by
  rw [histHasId, List.any_eq_true] at h
  obtain ⟨a, ha, he⟩ := h
  have hk : a.id = k := of_decide_eq_true he
  obtain ⟨w, hw, hid⟩ := idKey_mem_foldl_insert l [] a ha
  rw [histHasId, List.any_eq_true]
  exact ⟨w, List.mem_map.mpr ⟨(a.id, w), hw, rfl⟩,
    decide_eq_true (by rw [hid, hk])⟩

lemma histHasId_mergeSelected (hist sel : List Article) (s : Article)
    (hs : s ∈ sel) :
    histHasId (mergeSelectedIntoHistory hist sel) s.id = true := by
  unfold mergeSelectedIntoHistory
  obtain ⟨w, hw, hid⟩ := idKey_mem_foldl_insert sel (articlesById hist) s hs
  rw [histHasId, List.any_eq_true]
  exact ⟨w, List.mem_map.mpr ⟨(s.id, w), hw, rfl⟩, decide_eq_true hid⟩

/-! ## C2 — no duplicate processing -/

lemma applyMaxArticles_subset (m : Option Int) (l : List FeedEntry) :
    ∀ e ∈ applyMaxArticles m l, e ∈ l := by
  intro e he
  cases m with
  | none => exact he
  | some k =>
    simp only [applyMaxArticles] at he
    by_cases hc : 0 < k ∧ k < ((l.length : Int))
    · rw [if_pos hc] at he
      exact List.take_subset _ _ he
    · rw [if_neg hc] at he
      exact he

lemma fetch_mem_not_in_hist (feeds : List RSSFeedCfg) (hist : List Article)
    (maxAge : Option String) (now : Int) (ld : Option PyDateTime) (a : Article)
    (ha : a ∈ fetchArticlesPure feeds hist maxAge now ld) :
    histHasId hist a.id = false := by
  unfold fetchArticlesPure at ha
  rw [mem_foldl_append] at ha
  rcases ha with h | ⟨feed, _, hfa⟩
  · cases h
  · unfold perFeedArticles at hfa
    cases hres : feed.fetchResult with
    | none => rw [hres] at hfa; cases hfa
    | some entries =>
      rw [hres] at hfa
      unfold processFeedEntries at hfa
      rw [List.mem_filterMap] at hfa
      obtain ⟨e, he, hsome⟩ := hfa
      split at hsome
      · cases hsome
      · cases hsome
        have he2 := applyMaxArticles_subset _ _ e he
        rw [List.mem_filter] at he2
        have he3 := he2.2
        rw [Bool.not_eq_true'] at he3
        exact he3

/-- C2: an article committed to history is never fetched again.  First
conjunct: `fetch_articles` never returns an article whose id is a key of the
loaded history.  Second conjunct: after run 1 commits its selected articles
for collection `c` and run 2 fetches the same collection (same feeds,
unchanged network outcomes), no article of run 2's output carries the id of
any committed article. -/
theorem no_duplicate_processing (fs : FS) (c : String) (sel : List Article)
    (feeds : List RSSFeedCfg) (maxAge : Option String) (now : Int)
    (ld : Option PyDateTime) (fs1 : FS) (arts : List Article) :
    (∀ (hist : List Article) (a : Article),
        a ∈ fetchArticlesPure feeds hist maxAge now ld →
        histHasId hist a.id = false)
    ∧ (saveSelectedArticlesToHistory fs c sel = Except.ok fs1 →
        (fetchArticlesFS fs1 feeds c maxAge now ld).1 = Except.ok arts →
        ∀ a ∈ arts, ∀ s ∈ sel, a.id ≠ s.id) := by
  constructor
  · intro hist a ha
    exact fetch_mem_not_in_hist feeds hist maxAge now ld a ha
  · intro hsave hfetch a ha s hs hid
    unfold saveSelectedArticlesToHistory at hsave
    cases hload : loadHistoricalArticles fs c with
    | error e =>
      rw [hload] at hsave
      cases hsave
    | ok hist0 =>
      rw [hload] at hsave
      injection hsave with hfs1
      have hload1 : loadHistoricalArticles fs1 c
          = Except.ok
              ((articlesById (mergeSelectedIntoHistory hist0 sel)).map
                Prod.snd) := by
        rw [← hfs1]
        unfold saveArticlesToHistory fsWriteArticles loadHistoricalArticles
        rw [lookup_pyDictInsert_self]
      unfold fetchArticlesFS at hfetch
      rw [hload1] at hfetch
      injection hfetch with harts
      have hfalse := fetch_mem_not_in_hist feeds _ maxAge now ld a
        (harts ▸ ha)
      have htrue := histHasId_articlesById (mergeSelectedIntoHistory hist0 sel)
        s.id (histHasId_mergeSelected hist0 sel s hs)
      rw [hid] at hfalse
      rw [hfalse] at htrue
      cases htrue

/-- Witness for C2: commit the one-day article's id in run 1; run 2 on the
two-entry feed returns only the five-day entry's article, whose id differs
from the committed one. -/
theorem no_duplicate_processing_witness :
    (entryToArticle feedTwoEntries entryFiveDay ⟨demoNow - 432000, true⟩).id
      ≠ demoSelectedArticle.id := by
  have h := (no_duplicate_processing ⟨[], []⟩ "news" [demoSelectedArticle]
    [feedTwoEntries] none demoNow none demoFS1
    [entryToArticle feedTwoEntries entryFiveDay ⟨demoNow - 432000, true⟩]).2
    (by decide) (by decide)
  exact h _ (by decide) demoSelectedArticle (by decide)

/-! ## C1 — commit atomicity under failure -/

lemma lookup_foldl_insert_no_key {α : Type} (ps : List (String × α))
    (d : List (String × α)) (k : String) (h : ∀ p ∈ ps, p.1 ≠ k) :
    (ps.foldl (fun d p => pyDictInsert d p.1 p.2) d).lookup k = d.lookup k := by
  induction ps generalizing d with
  | nil => rfl
  | cons p t ih =>
    rw [List.foldl_cons]
    rw [ih _ (fun q hq => h q (List.mem_cons_of_mem p hq))]
    exact lookup_pyDictInsert_ne d p.1 k p.2
      (fun he => h p (List.mem_cons_self p t) he.symm)

lemma lookup_foldl_insert_unique {α : Type} (ps : List (String × α))
    (d : List (String × α)) (k : String) (v : α)
    (hv : (k, v) ∈ ps) (hnd : (ps.map Prod.fst).Nodup) :
    (ps.foldl (fun d p => pyDictInsert d p.1 p.2) d).lookup k = some v := by
  induction ps generalizing d with
  | nil => cases hv
  | cons p t ih =>
    rw [List.foldl_cons]
    rw [List.map_cons, List.nodup_cons] at hnd
    rcases List.mem_cons.mp hv with he | hv'
    · have hnk : ∀ q ∈ t, q.1 ≠ k := by
        intro q hq hqk
        rw [← he] at hnd
        exact hnd.1 (hqk ▸ List.mem_map.mpr ⟨q, hq, rfl⟩)
      rw [lookup_foldl_insert_no_key t _ k hnk, ← he]
      exact lookup_pyDictInsert_self d k v
    · exact ih _ hv' hnd.2

lemma collectionResultPairs_fst (cols : List CollectionRunSpec)
    (hbase : ∀ x ∈ cols, x.fileBase = x.name) :
    (collectionResultPairs cols).map Prod.fst
      = cols.map (fun c => c.name) := by
  induction cols with
  | nil => rfl
  | cons c t ih =>
    have hc : (match c.outcome with
        | Except.ok articles => (c.name, articles)
        | Except.error _ => (c.fileBase, ([] : List Article))).1 = c.name := by
      cases c.outcome with
      | ok _ => rfl
      | error _ => exact hbase c (List.mem_cons_self c t)
    simp only [collectionResultPairs, List.map_cons] at ih ⊢
    rw [hc, ih (fun x hx => hbase x (List.mem_cons_of_mem c hx))]

lemma commitHistories_cons_none (today : Int)
    (abc : List (String × List Article)) (fs : FS) (c : CollectionRunSpec)
    (t : List CollectionRunSpec) (hl : pyDictLookup abc c.name = none) :
    commitHistories today abc fs (c :: t) = commitHistories today abc fs t := by
  simp only [commitHistories]
  rw [hl]

lemma commitHistories_cons_some (today : Int)
    (abc : List (String × List Article)) (fs : FS) (c : CollectionRunSpec)
    (t : List CollectionRunSpec) (arts : List Article)
    (hl : pyDictLookup abc c.name = some arts) :
    commitHistories today abc fs (c :: t)
      = if arts.isEmpty = true then commitHistories today abc fs t
        else
          match saveSelectedArticlesToHistory fs c.name arts with
          | Except.error _ => fs
          | Except.ok fs2 =>
            commitHistories today abc (saveDigestTime fs2 c.name today) t := by
  simp only [commitHistories]
  rw [hl]

lemma commit_preserves_failed (today : Int) (abc : List (String × List Article))
    (cname : String) :
    ∀ (cols : List CollectionRunSpec) (fs : FS),
    (∀ x ∈ cols, x.name = cname → pyDictLookup abc x.name = some []) →
    (commitHistories today abc fs cols).articleFiles.lookup cname
      = fs.articleFiles.lookup cname := by
  intro cols
  induction cols with
  | nil =>
    intro fs _
    rfl
  | cons c t ih =>
    intro fs h
    have hrest := fun (fs' : FS) =>
      ih fs' (fun x hx => h x (List.mem_cons_of_mem c hx))
    cases hl : pyDictLookup abc c.name with
    | none =>
      rw [commitHistories_cons_none today abc fs c t hl]
      exact hrest fs
    | some arts =>
      rw [commitHistories_cons_some today abc fs c t arts hl]
      by_cases hemp : arts.isEmpty = true
      · rw [if_pos hemp]
        exact hrest fs
      · rw [if_neg hemp]
        cases hsv : saveSelectedArticlesToHistory fs c.name arts with
        | error e => rfl
        | ok fs2 =>
          show (commitHistories today abc
              (saveDigestTime fs2 c.name today) t).articleFiles.lookup cname
            = fs.articleFiles.lookup cname
          by_cases hcn : c.name = cname
          · exfalso
            have hsome := h c (List.mem_cons_self c t) hcn
            rw [hl] at hsome
            injection hsome with he
            rw [he] at hemp
            exact hemp rfl
          · rw [hrest _]
            have hart : (saveDigestTime fs2 c.name today).articleFiles
                = fs2.articleFiles := rfl
            rw [hart]
            unfold saveSelectedArticlesToHistory at hsv
            cases hld : loadHistoricalArticles fs c.name with
            | error e2 =>
              rw [hld] at hsv
              cases hsv
            | ok hist0 =>
              rw [hld] at hsv
              injection hsv with hfs2
              rw [← hfs2]
              exact lookup_pyDictInsert_ne _ c.name cname _
                (fun he => hcn he.symm)

/-- C1: a collection whose pipeline raised contributes the empty placeholder
to `articles_by_collection`, so the commit step never writes its history file:
after the whole run its persisted article history equals the pre-run state.
The hypotheses say the TOML basenames agree with the resolved collection names
and that collection names are pairwise distinct. -/
theorem commit_atomicity_under_failure (fs : FS)
    (cols : List CollectionRunSpec) (today : Int) (c : CollectionRunSpec)
    (e : String) (hmem : c ∈ cols) (herr : c.outcome = Except.error e)
    (hbase : ∀ x ∈ cols, x.fileBase = x.name)
    (hnd : (cols.map (fun x => x.name)).Nodup) :
    (runMainCommit fs cols today).articleFiles.lookup c.name
      = fs.articleFiles.lookup c.name := by
  unfold runMainCommit
  apply commit_preserves_failed
  intro x hx hxn
  have hx_eq : x = c :=
    List.inj_on_of_nodup_map hnd hx hmem hxn
  subst hx_eq
  have hg : (match x.outcome with
      | Except.ok articles => (x.name, articles)
      | Except.error _ => (x.fileBase, ([] : List Article)))
      = (x.name, ([] : List Article)) := by
    rw [herr, hbase x hx]
  have hpmem : (x.name, ([] : List Article)) ∈ collectionResultPairs cols := by
    unfold collectionResultPairs
    rw [← hg]
    exact List.mem_map_of_mem _ hx
  unfold articlesByCollection pyDictLookup
  apply lookup_foldl_insert_unique _ _ _ _ hpmem
  rw [collectionResultPairs_fst cols hbase]
  exact hnd

/-- Witness for C1: two collections, the first succeeding and the second
failing, over a filesystem that already holds history for the second; the
failed collection's history file is untouched by the commit step. -/
theorem commit_atomicity_under_failure_witness :
    (runMainCommit demoFSPre [demoColOk, demoColErr] 777).articleFiles.lookup
        demoColErr.name
      = demoFSPre.articleFiles.lookup demoColErr.name :=
  commit_atomicity_under_failure demoFSPre [demoColOk, demoColErr] 777
    demoColErr "boom" (by decide) (by decide) (by decide) (by decide)

end BetterMorning
